import Mathlib

/-!
# Verification of the Ingenic JZ47xx KMS driver atomic-commit engine

Shallow embedding of `drivers/gpu/drm/ingenic/ingenic-drm-drv.c`.
Machine integers (`u32`, `unsigned int`) are modelled as `Nat`; every
subtraction in the embedded code is performed on values where the C code
cannot underflow under the hypotheses of the theorems that use it, and
16.16 fixed-point source coordinates are kept raw and shifted by 16 as in
the source.  Fallible checks (`return -EINVAL`) are modelled with
`Option`: `none` is the validation error, `some` the success value.
-/

namespace IngenicDrm

/-- Pixel-format code `DRM_FORMAT_C8` (fourcc 'C' '8' ' ' ' ') from
`drm_fourcc.h`. -/
def DRM_FORMAT_C8 : Nat := 0x20203843

/-- Pixel-format code `DRM_FORMAT_RGB565` (fourcc 'R' 'G' '1' '6') from
`drm_fourcc.h`. -/
def DRM_FORMAT_RGB565 : Nat := 0x36314752

/-- Modelled from the spec: `JZ_LCD_CMD_EOF_IRQ`, the "end-of-frame
interrupt" flag bit of a descriptor's `cmd` word, is defined in
`ingenic-drm.h` which is not among the provided sources.  The spec only
requires it to be a flag bit disjoint from the transfer-length field; the
code (`ingenic_drm_refresh_work`) masks it out with `&~` to recover the
length, so it is a single high bit.  We model it as bit 30 of the 32-bit
`cmd` word. -/
def JZ_LCD_CMD_EOF_IRQ : Nat := 2 ^ 30

/-- `struct ingenic_dma_hwdesc`: one DMA transfer descriptor
(`next`, `addr`, `id`, `cmd`, all `u32`, 16-byte aligned). -/
structure ingenic_dma_hwdesc where
  next : Nat
  addr : Nat
  id : Nat
  cmd : Nat
deriving Repr, DecidableEq

/-- `sizeof(struct ingenic_dma_hwdesc)`: four `u32` fields, aligned to 16
bytes. -/
def sizeof_hwdesc : Nat := 16

/-- Number of entries of the hardware palette:
`u16 palette[256]` in `struct ingenic_dma_hwdescs`. -/
def palette_size : Nat := 256

/-- Byte offset of `hwdesc[use_f1]` inside `struct ingenic_dma_hwdescs`;
`dma_hwdesc_addr` returns `dma_hwdescs_phys + offset`. -/
def dma_hwdesc_addr (dma_hwdescs_phys : Nat) (use_f1 : Bool) : Nat :=
  dma_hwdescs_phys + (if use_f1 then sizeof_hwdesc else 0)

/-- Byte offset of `hwdesc_pal` inside `struct ingenic_dma_hwdescs`
(it follows the two plane descriptors); `dma_hwdesc_pal_addr` returns
`dma_hwdescs_phys + offset`. -/
def dma_hwdesc_pal_addr (dma_hwdescs_phys : Nat) : Nat :=
  dma_hwdescs_phys + 2 * sizeof_hwdesc

/-- The descriptor-relevant fields of a `struct drm_framebuffer`:
pixel format (fourcc), `format->cpp[0]` (bytes per pixel), `pitches[0]`,
`height`, and the physical base address of its backing GEM buffer
(`drm_fb_cma_get_gem_addr`). -/
structure drm_framebuffer where
  format : Nat
  cpp : Nat
  pitch : Nat
  height : Nat
  addr : Nat
deriving Repr, DecidableEq

/-- The fields of a `struct drm_plane_state` read by the driver.
`src_*` are in 16.16 fixed-point format as in DRM; `crtc_*` are integer
destination coordinates.  `fb = none` models a plane with no framebuffer
attached (disabled). -/
structure drm_plane_state where
  fb : Option drm_framebuffer
  crtc_x : Int
  crtc_y : Int
  crtc_w : Nat
  crtc_h : Nat
  src_x : Nat
  src_y : Nat
  src_w : Nat
  src_h : Nat
deriving Repr, DecidableEq

/-- `struct ingenic_drm_private_state`: the versioned engine private
state. -/
structure ingenic_drm_private_state where
  no_vblank : Bool
  use_palette : Bool
  doublescan : Bool
deriving Repr, DecidableEq

/-- The condition of lines 592–597 of `ingenic_drm_plane_atomic_check`
(source comment: "Require full modeset if enabling or disabling a plane,
or changing its position, size or depth"): old or new framebuffer
absent, destination position or size differing, or — when both
framebuffers are present — pixel format differing (in C the format
comparison dereferences both, reached only when the earlier disjuncts
are false). -/
def plane_forces_modeset (old_plane_state new_plane_state : drm_plane_state) :
    Bool :=
  old_plane_state.fb.isNone || new_plane_state.fb.isNone ||
  old_plane_state.crtc_x != new_plane_state.crtc_x ||
  old_plane_state.crtc_y != new_plane_state.crtc_y ||
  old_plane_state.crtc_w != new_plane_state.crtc_w ||
  old_plane_state.crtc_h != new_plane_state.crtc_h ||
  (match old_plane_state.fb, new_plane_state.fb with
   | some ofb, some nfb => ofb.format != nfb.format
   | _, _ => false)

/-- `state->fb && state->fb->format->format == DRM_FORMAT_C8`, the
palette condition of `ingenic_drm_plane_atomic_check`. -/
def plane_use_palette (new_plane_state : drm_plane_state) : Bool :=
  match new_plane_state.fb with
  | some fb => fb.format == DRM_FORMAT_C8
  | none => false

/-- `ingenic_drm_plane_atomic_check`, for a plane that is attached to a
CRTC (the function returns 0 immediately when `!crtc`).  Inputs beyond
the old/new plane states:
* `has_osd` — `priv->soc_info->has_osd`;
* `helper_ok` — the result of `drm_atomic_helper_check_plane_state`
  (DRM core, outside this driver), modelled as an oracle;
* `ps` — the commit's duplicated private state;
* `mode_changed` — `crtc_state->mode_changed` on entry.
Returns `none` on `-EINVAL`, otherwise the updated private state and the
updated `mode_changed` flag. -/
def ingenic_drm_plane_atomic_check (has_osd helper_ok : Bool)
    (old_plane_state new_plane_state : drm_plane_state)
    (ps : ingenic_drm_private_state) (mode_changed : Bool) :
    Option (ingenic_drm_private_state × Bool) :=
  if !helper_ok then
    none
  else if !has_osd &&
      (new_plane_state.src_x != 0 ||
       (new_plane_state.src_w >>> 16) != new_plane_state.crtc_w ||
       (new_plane_state.src_h >>> 16) != new_plane_state.crtc_h) then
    none
  else
    -- Enable doublescan if the CRTC_H is twice the SRC_H.
    let ps := { ps with
      doublescan := (new_plane_state.src_h >>> 16) * 2 == new_plane_state.crtc_h }
    -- Otherwise, fail if CRTC_H != SRC_H
    if !ps.doublescan &&
        (new_plane_state.src_h >>> 16) != new_plane_state.crtc_h then
      none
    -- Fail if CRTC_W != SRC_W
    else if (new_plane_state.src_w >>> 16) != new_plane_state.crtc_w then
      none
    else
      let ps := { ps with use_palette := plane_use_palette new_plane_state }
      -- Require full modeset if enabling or disabling a plane, or
      -- changing its position, size or depth.
      let mode_changed :=
        if has_osd && plane_forces_modeset old_plane_state new_plane_state then
          true
        else
          mode_changed
      some (ps, mode_changed)

/-- `ingenic_drm_crtc_atomic_check`.  Inputs:
* `gamma_lut_size` — `drm_color_lut_size(crtc_state->gamma_lut)` when a
  gamma LUT is attached to the proposed CRTC state, `none` otherwise;
* `needs_modeset` — `drm_atomic_crtc_needs_modeset(crtc_state)`;
* `has_osd` — `priv->soc_info->has_osd`;
* `f1_state`, `f0_state` — the two fixed planes' proposed states;
* `ipu_state` — the IPU plane's proposed state when `priv->ipu_plane`
  exists, `none` on hardware without an IPU plane;
* `ps` — the commit's duplicated private state.
Returns `none` on `-EINVAL`, otherwise the (possibly updated) private
state. -/
def ingenic_drm_crtc_atomic_check (gamma_lut_size : Option Nat)
    (needs_modeset has_osd : Bool)
    (f1_state f0_state : drm_plane_state)
    (ipu_state : Option drm_plane_state)
    (ps : ingenic_drm_private_state) :
    Option ingenic_drm_private_state :=
  if (match gamma_lut_size with
      | some n => n != palette_size
      | none => false) then
    none
  else if needs_modeset && has_osd then
    -- IPU and F1 planes cannot be enabled at the same time.
    if (match ipu_state with
        | some ipu => f1_state.fb.isSome && ipu.fb.isSome
        | none => false) then
      none
    else
      -- If all the planes are disabled, we won't get a VBLANK IRQ
      some { ps with
        no_vblank := f1_state.fb.isNone && f0_state.fb.isNone &&
          !(match ipu_state with
            | some ipu => ipu.fb.isSome
            | none => false) }
  else
    some ps

/-- `ingenic_drm_atomic_helper_commit_tail` calls
`drm_atomic_helper_wait_for_vblanks` unless the new private state exists
and has `no_vblank` set; this predicate is true exactly when the commit
tail waits on the hardware vertical-blank interrupt. -/
def commit_tail_waits_for_vblanks (ps : Option ingenic_drm_private_state) :
    Bool :=
  match ps with
  | none => true
  | some s => !s.no_vblank

/-- One commit's atomic validation, as sequenced by the DRM atomic helper
(`drm_atomic_helper_check`): the plane `atomic_check` hooks run for every
plane attached to the commit, accumulating `crtc_state->mode_changed`,
then the CRTC `atomic_check` hook runs with
`drm_atomic_crtc_needs_modeset` reflecting the accumulated flag.  This
models a commit touching the two fixed planes `f1` and `f0` on hardware
without an IPU plane.  `f1_in_commit`/`f0_in_commit` model
`new_plane_state->crtc ?: old_plane_state->crtc` being non-NULL (a plane
whose state carries no CRTC makes its `atomic_check` return 0 at once);
`base_mode_changed` models `mode_changed` already being set at entry by a
change of the CRTC's own mode or enable status. -/
def ingenic_full_atomic_check (has_osd : Bool)
    (gamma_lut_size : Option Nat) (base_mode_changed : Bool)
    (f1_in_commit f1_helper_ok : Bool)
    (old_f1 new_f1 : drm_plane_state)
    (f0_in_commit f0_helper_ok : Bool)
    (old_f0 new_f0 : drm_plane_state)
    (ps : ingenic_drm_private_state) :
    Option ingenic_drm_private_state :=
  let step1 :=
    if f1_in_commit then
      ingenic_drm_plane_atomic_check has_osd f1_helper_ok old_f1 new_f1
        ps base_mode_changed
    else
      some (ps, base_mode_changed)
  match step1 with
  | none => none
  | some (ps1, mc1) =>
    let step2 :=
      if f0_in_commit then
        ingenic_drm_plane_atomic_check has_osd f0_helper_ok old_f0 new_f0
          ps1 mc1
      else
        some (ps1, mc1)
    match step2 with
    | none => none
    | some (ps2, mc2) =>
      ingenic_drm_crtc_atomic_check gamma_lut_size mc2 has_osd
        new_f1 new_f0 none ps2

/-- The fields of a `struct drm_display_mode` read by
`ingenic_drm_crtc_update_timings` (the `crtc_*` hardware-adjusted
copies). -/
structure drm_display_mode where
  crtc_hdisplay : Nat
  crtc_hsync_start : Nat
  crtc_hsync_end : Nat
  crtc_htotal : Nat
  crtc_vdisplay : Nat
  crtc_vsync_start : Nat
  crtc_vsync_end : Nat
  crtc_vtotal : Nat
deriving Repr, DecidableEq

/-- The timing quantities computed by `ingenic_drm_crtc_update_timings`
before they are packed into the `VSYNC`/`HSYNC`/`VAT`/`DAH`/`DAV`
registers: sync pulse end (`pe`), display start (`ds`), display end
(`de`) and total (`t`) for both dimensions. -/
structure ingenic_timings where
  vpe : Nat
  vds : Nat
  vde : Nat
  vt : Nat
  hpe : Nat
  hds : Nat
  hde : Nat
  ht : Nat
deriving Repr, DecidableEq

/-- The computation of `ingenic_drm_crtc_update_timings`.  All
subtractions are on `unsigned int`; under the mode hypotheses of the
theorems below none of them underflows, so `Nat` subtraction agrees with
the C arithmetic. -/
def ingenic_drm_crtc_update_timings (mode : drm_display_mode) :
    ingenic_timings :=
  let vpe := mode.crtc_vsync_end - mode.crtc_vsync_start
  let vds := mode.crtc_vtotal - mode.crtc_vsync_start
  let vde := vds + mode.crtc_vdisplay
  let vt := vde + mode.crtc_vsync_start - mode.crtc_vdisplay
  let hpe := mode.crtc_hsync_end - mode.crtc_hsync_start
  let hds := mode.crtc_htotal - mode.crtc_hsync_start
  let hde := hds + mode.crtc_hdisplay
  let ht := hde + mode.crtc_hsync_start - mode.crtc_hdisplay
  { vpe := vpe, vds := vds, vde := vde, vt := vt,
    hpe := hpe, hds := hds, hde := hde, ht := ht }

/-- The `next` target of the last descriptor of a plane's chain, as
computed in `ingenic_drm_plane_atomic_update`: the palette descriptor
when the committed state uses the palette, otherwise the plane's own
hardware descriptor slot. -/
def ingenic_next_addr (ps : ingenic_drm_private_state)
    (dma_hwdescs_phys : Nat) (use_f1 : Bool) : Nat :=
  if ps.use_palette then dma_hwdesc_pal_addr dma_hwdescs_phys
  else dma_hwdesc_addr dma_hwdescs_phys use_f1

/-- The loop of the doublescan branch of
`ingenic_drm_plane_atomic_update`: for `i < crtc_h` it writes
`hwdesc[i].next = obj->hwdescs_phys + (i + 1) * sizeof(*hwdesc)`,
`hwdesc[i].addr = addr + (i / 2) * fb->pitches[0]` (each input line used
twice) and `hwdesc[i].cmd = fb->pitches[0] / 4` (one line's word count).
The `id` field is not written by the loop; it is modelled as 0 here
since no theorem depends on it. -/
def ingenic_doublescan_nodes (hwdescs_phys addr pitch crtc_h : Nat) :
    List ingenic_dma_hwdesc :=
  (List.range crtc_h).map (fun i =>
    { next := hwdescs_phys + (i + 1) * sizeof_hwdesc,
      addr := addr + (i / 2) * pitch,
      id := 0,
      cmd := pitch / 4 })

/-- The doublescan branch of `ingenic_drm_plane_atomic_update`: the loop
writes one descriptor per output line into the framebuffer's descriptor
arena (`obj->hwdescs`, at physical address `hwdescs_phys`), then the
last node's `cmd` gets the end-of-frame flag OR-ed in and its `next` is
redirected to `next_addr` ("We want the EOF IRQ only on the very last
transfer"). -/
def ingenic_doublescan_chain (hwdescs_phys addr pitch crtc_h next_addr : Nat) :
    List ingenic_dma_hwdesc :=
  match (ingenic_doublescan_nodes hwdescs_phys addr pitch
      crtc_h).get? (crtc_h - 1) with
  | some last =>
    (ingenic_doublescan_nodes hwdescs_phys addr pitch crtc_h).set
      (crtc_h - 1)
      { last with cmd := last.cmd ||| JZ_LCD_CMD_EOF_IRQ,
                  next := next_addr }
  | none => ingenic_doublescan_nodes hwdescs_phys addr pitch crtc_h

/-- The single-descriptor branch of `ingenic_drm_plane_atomic_update`:
one DMA descriptor for the whole frame, written into the plane's
hardware descriptor slot.  The `id` field is not written; it is modelled
as 0 here since no theorem depends on it. -/
def ingenic_single_hwdesc (addr width height cpp next_addr : Nat) :
    ingenic_dma_hwdesc :=
  { next := next_addr,
    addr := addr,
    id := 0,
    cmd := JZ_LCD_CMD_EOF_IRQ ||| (width * height * cpp / 4) }

/-- The descriptor chain written by `ingenic_drm_plane_atomic_update`
for a plane whose new state has a framebuffer, given the committed
private state.  `hwdescs_phys` is the framebuffer's descriptor arena
address, `dma_hwdescs_phys` the address of the shared
`struct ingenic_dma_hwdescs`, `use_f1` the plane selector
(`has_osd && plane != &priv->f0`). -/
def ingenic_drm_plane_atomic_update (ps : ingenic_drm_private_state)
    (newstate : drm_plane_state) (fb : drm_framebuffer)
    (hwdescs_phys dma_hwdescs_phys : Nat) (use_f1 : Bool) :
    List ingenic_dma_hwdesc :=
  let addr := fb.addr
  let width := newstate.src_w >>> 16
  let height := newstate.src_h >>> 16
  let cpp := fb.cpp
  let next_addr := ingenic_next_addr ps dma_hwdescs_phys use_f1
  if ps.doublescan then
    ingenic_doublescan_chain hwdescs_phys addr fb.pitch newstate.crtc_h
      next_addr
  else
    [ingenic_single_hwdesc addr width height cpp next_addr]

/-- The indices of `obj->hwdescs` written by the doublescan branch of
`ingenic_drm_plane_atomic_update`: the loop writes `hwdesc[i]` for every
`i < crtc_h`, then `hwdesc[crtc_h - 1]` is written again (for `crtc_h = 0`
the unsigned index `crtc_h - 1` wraps in C; the theorems about this set
assume `0 < crtc_h`, which holds for any visible plane). -/
def doublescan_written_slots (crtc_h : Nat) : List Nat :=
  List.range crtc_h ++ [crtc_h - 1]

/-- The number of descriptor slots of the per-framebuffer arena:
`ingenic_drm_gem_fb_create` allocates
`sizeof(*obj->hwdescs) * fb->height * 2` bytes, i.e. `fb->height * 2`
slots, "in case we want to use the doublescan feature". -/
def ingenic_fb_hwdescs_slots (fb : drm_framebuffer) : Nat :=
  fb.height * 2

/-- Transfer-length extraction from a descriptor `cmd` word, as performed
by `ingenic_drm_refresh_work`: `cmd &~ JZ_LCD_CMD_EOF_IRQ`, where the
`u32` complement `~` is XOR with the all-ones 32-bit word.  The result is
the transfer length in words. -/
def ingenic_cmd_len (cmd : Nat) : Nat :=
  cmd &&& ((2 ^ 32 - 1) ^^^ JZ_LCD_CMD_EOF_IRQ)

/-- Example framebuffer for the spec's scenario: 320×240, RGB565
(2 bytes per pixel), pitch 640 bytes. -/
def fb565 : drm_framebuffer :=
  { format := DRM_FORMAT_RGB565, cpp := 2, pitch := 640, height := 240,
    addr := 0 }

/-- Example plane state: full-screen 320×240 source and destination,
backed by `fb565`. -/
def plane320 : drm_plane_state :=
  { fb := some fb565, crtc_x := 0, crtc_y := 0, crtc_w := 320,
    crtc_h := 240, src_x := 0, src_y := 0, src_w := 320 <<< 16,
    src_h := 240 <<< 16 }

/-- Example plane state for the doublescan scenario: 320×240 source,
320×480 destination. -/
def plane320x480 : drm_plane_state :=
  { plane320 with crtc_h := 480 }

/-- Example disabled plane state (no framebuffer attached). -/
def plane_disabled : drm_plane_state :=
  { plane320 with fb := none }

/-- Example private state with all flags cleared. -/
def priv0 : ingenic_drm_private_state :=
  { no_vblank := false, use_palette := false, doublescan := false }

/-- The display-mode invariant exactly as the spec states it:
`sync_start < sync_end ≤ total` and `display ≤ total`, in both the
horizontal and the vertical dimension. -/
def mode_invariant (m : drm_display_mode) : Prop :=
  m.crtc_hsync_start < m.crtc_hsync_end ∧
  m.crtc_hsync_end ≤ m.crtc_htotal ∧
  m.crtc_hdisplay ≤ m.crtc_htotal ∧
  m.crtc_vsync_start < m.crtc_vsync_end ∧
  m.crtc_vsync_end ≤ m.crtc_vtotal ∧
  m.crtc_vdisplay ≤ m.crtc_vtotal

instance (m : drm_display_mode) : Decidable (mode_invariant m) := by
  unfold mode_invariant
  infer_instance

/-- The display-mode invariant strengthened with `display ≤ sync_start`
in both dimensions (equivalently, a non-negative front porch — the
conventional well-formedness of a display mode, which the spec's stated
invariant omits).  This is the weakest strengthening under which the
computed active-area end is bounded by the programmed total. -/
def mode_invariant_amended (m : drm_display_mode) : Prop :=
  mode_invariant m ∧
  m.crtc_hdisplay ≤ m.crtc_hsync_start ∧
  m.crtc_vdisplay ≤ m.crtc_vsync_start

instance (m : drm_display_mode) : Decidable (mode_invariant_amended m) := by
  unfold mode_invariant_amended
  infer_instance

/-! ## Helper lemmas -/

/-- Clearing the end-of-frame flag of a `cmd` word whose length field is
below the flag bit recovers the length exactly. -/
theorem ingenic_cmd_len_lor_eof (x : Nat) (hx : x < 2 ^ 30) :
    ingenic_cmd_len (x ||| JZ_LCD_CMD_EOF_IRQ) = x := by
  unfold ingenic_cmd_len JZ_LCD_CMD_EOF_IRQ
  apply Nat.eq_of_testBit_eq
  intro j
  rw [Nat.testBit_and, Nat.testBit_or, Nat.testBit_xor,
      Nat.testBit_two_pow_sub_one, Nat.testBit_two_pow]
  by_cases h30 : j = 30
  · subst h30
    simp [Nat.testBit_lt_two_pow hx]
  · by_cases h32 : j < 32
    · simp [h32, Ne.symm h30]
    · have hxj : x.testBit j = false :=
        Nat.testBit_lt_two_pow
          (lt_of_lt_of_le hx (Nat.pow_le_pow_right (by omega) (by omega)))
      simp [h32, Ne.symm h30, hxj]

/-- A `cmd` word with the end-of-frame flag OR-ed in reports the flag. -/
theorem testBit_eof_lor_right (x : Nat) :
    (x ||| JZ_LCD_CMD_EOF_IRQ).testBit 30 = true := by
  unfold JZ_LCD_CMD_EOF_IRQ
  rw [Nat.testBit_or, Nat.testBit_two_pow_self]
  simp

/-- A `cmd` word with the end-of-frame flag OR-ed in on the left reports
the flag. -/
theorem testBit_eof_lor_left (x : Nat) :
    (JZ_LCD_CMD_EOF_IRQ ||| x).testBit 30 = true := by
  unfold JZ_LCD_CMD_EOF_IRQ
  rw [Nat.testBit_or, Nat.testBit_two_pow_self]
  simp

/-- The end-of-frame flag constant reports its own bit. -/
theorem testBit_eof_self : JZ_LCD_CMD_EOF_IRQ.testBit 30 = true := by
  unfold JZ_LCD_CMD_EOF_IRQ
  exact Nat.testBit_two_pow_self

/-- Clearing the end-of-frame flag of a `cmd` word that does not carry
it leaves the word unchanged. -/
theorem ingenic_cmd_len_of_lt (x : Nat) (hx : x < 2 ^ 30) :
    ingenic_cmd_len x = x := by
  unfold ingenic_cmd_len JZ_LCD_CMD_EOF_IRQ
  apply Nat.eq_of_testBit_eq
  intro j
  rw [Nat.testBit_and, Nat.testBit_xor, Nat.testBit_two_pow_sub_one,
      Nat.testBit_two_pow]
  by_cases h30 : j = 30
  · subst h30
    simp [Nat.testBit_lt_two_pow hx]
  · by_cases h32 : j < 32
    · simp [h32, Ne.symm h30]
    · have hxj : x.testBit j = false :=
        Nat.testBit_lt_two_pow
          (lt_of_lt_of_le hx (Nat.pow_le_pow_right (by omega) (by omega)))
      simp [h32, hxj]

/-- Variant of `ingenic_cmd_len_lor_eof` with the flag OR-ed in on the
left. -/
theorem ingenic_cmd_len_eof_lor (x : Nat) (hx : x < 2 ^ 30) :
    ingenic_cmd_len (JZ_LCD_CMD_EOF_IRQ ||| x) = x := by
  rw [Nat.lor_comm]
  exact ingenic_cmd_len_lor_eof x hx

/-- Element `i` of the doublescan loop's node list, for `i` within the
output height. -/
theorem ingenic_doublescan_nodes_get (hwdescs_phys addr pitch crtc_h i :
    Nat) (hi : i < crtc_h) :
    (ingenic_doublescan_nodes hwdescs_phys addr pitch crtc_h).get? i =
      some { next := hwdescs_phys + (i + 1) * sizeof_hwdesc,
             addr := addr + (i / 2) * pitch,
             id := 0,
             cmd := pitch / 4 } := by
  unfold ingenic_doublescan_nodes
  rw [List.get?_map, List.get?_range hi]
  rfl

/-- The doublescan loop writes one node per output line. -/
theorem ingenic_doublescan_nodes_length (hwdescs_phys addr pitch crtc_h :
    Nat) :
    (ingenic_doublescan_nodes hwdescs_phys addr pitch crtc_h).length =
      crtc_h := by
  unfold ingenic_doublescan_nodes
  rw [List.length_map, List.length_range]

/-- The doublescan chain has exactly `crtc_h` nodes. -/
theorem ingenic_doublescan_chain_length (hwdescs_phys addr pitch crtc_h
    next_addr : Nat) :
    (ingenic_doublescan_chain hwdescs_phys addr pitch crtc_h
      next_addr).length = crtc_h := by
  unfold ingenic_doublescan_chain
  rcases hget : (ingenic_doublescan_nodes hwdescs_phys addr pitch
      crtc_h).get? (crtc_h - 1) with _ | last
  · simp [ingenic_doublescan_nodes_length]
  · simp [ingenic_doublescan_nodes_length]

/-- Element `i` of the doublescan chain, for `i` within the output
height: source address `addr + (i / 2) * pitch`, one line's word count
as transfer length, `next` pointing at the immediately following arena
slot, except the last node, which carries the end-of-frame flag and
points at `next_addr`. -/
theorem ingenic_doublescan_chain_get (hwdescs_phys addr pitch crtc_h
    next_addr : Nat) (hpos : 0 < crtc_h) (i : Nat) (hi : i < crtc_h) :
    (ingenic_doublescan_chain hwdescs_phys addr pitch crtc_h
        next_addr).get? i =
      some { next := if i = crtc_h - 1 then next_addr
                     else hwdescs_phys + (i + 1) * sizeof_hwdesc,
             addr := addr + (i / 2) * pitch,
             id := 0,
             cmd := if i = crtc_h - 1
                    then (pitch / 4) ||| JZ_LCD_CMD_EOF_IRQ
                    else pitch / 4 } := by
  unfold ingenic_doublescan_chain
  have hlast : crtc_h - 1 < crtc_h := by omega
  rw [ingenic_doublescan_nodes_get hwdescs_phys addr pitch crtc_h
    (crtc_h - 1) hlast]
  simp only []
  by_cases he : i = crtc_h - 1
  · subst he
    rw [List.get?_set_eq_of_lt]
    · simp
    · rw [ingenic_doublescan_nodes_length]
      exact hlast
  · rw [List.get?_set_ne _ _ (fun hx => he hx.symm)]
    rw [ingenic_doublescan_nodes_get hwdescs_phys addr pitch crtc_h i hi]
    simp [he]

/-- Characterization of a successful `ingenic_drm_plane_atomic_check`:
success implies the height/width geometry conditions, and determines the
returned private state and `mode_changed` flag. -/
theorem plane_atomic_check_some (has_osd helper_ok : Bool)
    (old_plane_state new_plane_state : drm_plane_state)
    (ps ps' : ingenic_drm_private_state) (mc mc' : Bool)
    (h : ingenic_drm_plane_atomic_check has_osd helper_ok old_plane_state
        new_plane_state ps mc = some (ps', mc')) :
    ((new_plane_state.src_h >>> 16) = new_plane_state.crtc_h ∨
     (new_plane_state.src_h >>> 16) * 2 = new_plane_state.crtc_h) ∧
    (new_plane_state.src_w >>> 16) = new_plane_state.crtc_w ∧
    ps' = { ps with
      doublescan :=
        (new_plane_state.src_h >>> 16) * 2 == new_plane_state.crtc_h,
      use_palette := plane_use_palette new_plane_state } ∧
    mc' = (if has_osd && plane_forces_modeset old_plane_state new_plane_state
           then true else mc) := by
  unfold ingenic_drm_plane_atomic_check at h
  repeat split at h
  all_goals simp_all
  tauto

/-- When a plane's modeset-forcing condition is false, both the old and
the new plane state carry a framebuffer. -/
theorem plane_forces_modeset_false (old_plane_state new_plane_state :
    drm_plane_state)
    (h : plane_forces_modeset old_plane_state new_plane_state = false) :
    old_plane_state.fb.isNone = false ∧
    new_plane_state.fb.isNone = false := by
  constructor
  · by_contra hx
    rw [Bool.not_eq_false] at hx
    unfold plane_forces_modeset at h
    rw [hx] at h
    simp at h
  · by_contra hx
    rw [Bool.not_eq_false] at hx
    unfold plane_forces_modeset at h
    rw [hx] at h
    simp at h

/-- A successful plane atomic check never touches the `no_vblank` field
of the private state. -/
theorem plane_atomic_check_no_vblank (has_osd helper_ok : Bool)
    (old_plane_state new_plane_state : drm_plane_state)
    (ps ps' : ingenic_drm_private_state) (mc mc' : Bool)
    (h : ingenic_drm_plane_atomic_check has_osd helper_ok old_plane_state
        new_plane_state ps mc = some (ps', mc')) :
    ps'.no_vblank = ps.no_vblank := by
  obtain ⟨-, -, hps, -⟩ :=
    plane_atomic_check_some has_osd helper_ok old_plane_state
      new_plane_state ps ps' mc mc' h
  rw [hps]

/-- Characterization of a successful CRTC atomic check on OSD hardware
without an IPU plane: a modeset commit recomputes `no_vblank` from the
two planes' framebuffer presence, a non-modeset commit returns the
private state unchanged. -/
theorem crtc_atomic_check_ipu_none (gamma_lut_size : Option Nat)
    (needs_modeset : Bool) (f1_state f0_state : drm_plane_state)
    (ps ps' : ingenic_drm_private_state)
    (h : ingenic_drm_crtc_atomic_check gamma_lut_size needs_modeset true
        f1_state f0_state none ps = some ps') :
    ps' = if needs_modeset = true
          then { ps with
            no_vblank := f1_state.fb.isNone && f0_state.fb.isNone }
          else ps := by
  unfold ingenic_drm_crtc_atomic_check at h
  repeat' split at h
  all_goals first
    | (injection h with h; subst h; simp_all)
    | simp_all

/-- Properties of one optional plane step of a commit's validation: the
`no_vblank` field is untouched, and if the accumulated `mode_changed`
flag is still false after the step then the plane's enabled/disabled
status is unchanged and the flag was false before the step. -/
theorem plane_step_props (inb helper : Bool)
    (old_plane_state new_plane_state : drm_plane_state)
    (ps : ingenic_drm_private_state) (mc : Bool)
    (ps1 : ingenic_drm_private_state) (mc1 : Bool)
    (hstep : (if inb = true
        then ingenic_drm_plane_atomic_check true helper old_plane_state
          new_plane_state ps mc
        else some (ps, mc)) = some (ps1, mc1))
    (hnc : inb = false → old_plane_state.fb = none ∧
      new_plane_state.fb = none) :
    ps1.no_vblank = ps.no_vblank ∧
    (mc1 = false →
      old_plane_state.fb.isNone = new_plane_state.fb.isNone ∧
      mc = false) := by
  by_cases hin : inb = true
  · rw [if_pos hin] at hstep
    obtain ⟨-, -, hps1, hmc1⟩ := plane_atomic_check_some true helper
      old_plane_state new_plane_state ps ps1 mc mc1 hstep
    constructor
    · rw [hps1]
    · intro hm
      rw [hm] at hmc1
      by_cases hpfm : plane_forces_modeset old_plane_state
          new_plane_state = true
      · rw [hpfm] at hmc1
        simp at hmc1
      · rw [Bool.not_eq_true] at hpfm
        obtain ⟨h1, h2⟩ := plane_forces_modeset_false _ _ hpfm
        rw [hpfm] at hmc1
        simp only [Bool.and_false, Bool.false_eq_true, if_false] at hmc1
        exact ⟨by rw [h1, h2], hmc1.symm⟩
  · rw [Bool.not_eq_true] at hin
    rw [if_neg (by simp [hin])] at hstep
    simp only [Option.some.injEq, Prod.mk.injEq] at hstep
    obtain ⟨hps, hmc⟩ := hstep
    obtain ⟨ho, hn⟩ := hnc hin
    constructor
    · rw [← hps]
    · intro hm
      rw [← hmc] at hm
      exact ⟨by rw [ho, hn], hm⟩

/-! ## Claim theorems -/

/-- C1: on a controller with an overlay (`has_osd`), a successful plane
atomic check forces a full modeset (`mode_changed = true`) whenever the
old or new framebuffer is absent (plane enabled or disabled), the
destination position (`crtc_x`/`crtc_y`) or size (`crtc_w`/`crtc_h`)
differs, or the pixel format differs between the old and new plane
state; and a commit that only swaps the framebuffer with identical
geometry and format leaves `mode_changed` exactly as it came in (in
particular it is not set by the plane check). -/
theorem C1_plane_check_modeset (helper_ok mc mc' : Bool)
    (old_plane_state new_plane_state : drm_plane_state)
    (ps ps' : ingenic_drm_private_state)
    (h : ingenic_drm_plane_atomic_check true helper_ok old_plane_state
        new_plane_state ps mc = some (ps', mc')) :
    ((old_plane_state.fb = none ∨ new_plane_state.fb = none ∨
      old_plane_state.crtc_x ≠ new_plane_state.crtc_x ∨
      old_plane_state.crtc_y ≠ new_plane_state.crtc_y ∨
      old_plane_state.crtc_w ≠ new_plane_state.crtc_w ∨
      old_plane_state.crtc_h ≠ new_plane_state.crtc_h ∨
      (∃ ofb nfb, old_plane_state.fb = some ofb ∧
        new_plane_state.fb = some nfb ∧ ofb.format ≠ nfb.format)) →
      mc' = true) ∧
    (∀ ofb nfb, old_plane_state.fb = some ofb →
      new_plane_state.fb = some nfb →
      old_plane_state.crtc_x = new_plane_state.crtc_x →
      old_plane_state.crtc_y = new_plane_state.crtc_y →
      old_plane_state.crtc_w = new_plane_state.crtc_w →
      old_plane_state.crtc_h = new_plane_state.crtc_h →
      ofb.format = nfb.format →
      mc' = mc) := by
  obtain ⟨-, -, -, hmc⟩ :=
    plane_atomic_check_some true helper_ok old_plane_state new_plane_state
      ps ps' mc mc' h
  constructor
  · intro hcond
    have hf : plane_forces_modeset old_plane_state new_plane_state = true := by
      unfold plane_forces_modeset
      rcases hcond with h1 | h1 | h1 | h1 | h1 | h1 | ⟨ofb, nfb, h1, h2, h3⟩ <;>
        simp [h1]
      simp [h2, h3]
    rw [hmc, hf]
    simp
  · intro ofb nfb h1 h2 h3 h4 h5 h6 h7
    have hf : plane_forces_modeset old_plane_state new_plane_state = false := by
      unfold plane_forces_modeset
      simp [h1, h2, h3, h4, h5, h6, h7]
    rw [hmc, hf]
    simp

/-- C1, witness: enabling a plane (old framebuffer absent, new present,
geometry unchanged) makes a successful plane check report
`mode_changed = true`. -/
theorem C1_plane_check_modeset_witness :
    (ingenic_drm_plane_atomic_check true true plane_disabled plane320 priv0
        false = some ({ priv0 with doublescan := false }, true)) ∧
    ((true : Bool) = true) :=
  ⟨by decide,
   (C1_plane_check_modeset true false true plane_disabled plane320 priv0
       { priv0 with doublescan := false } (by decide)).1
     (Or.inl (by decide))⟩

/-- C4: a successful plane atomic check implies the geometry conditions:
the output height equals the source height or exactly twice the source
height (doublescan), and the output width equals the source width; by
contraposition any other height relation (such as 300 with source 240)
or any width mismatch yields `none` (`-EINVAL`), and the check is a pure
validation function that performs no hardware write. -/
theorem C4_plane_check_geometry (has_osd helper_ok mc mc' : Bool)
    (old_plane_state new_plane_state : drm_plane_state)
    (ps ps' : ingenic_drm_private_state)
    (h : ingenic_drm_plane_atomic_check has_osd helper_ok old_plane_state
        new_plane_state ps mc = some (ps', mc')) :
    ((new_plane_state.src_h >>> 16) = new_plane_state.crtc_h ∨
     (new_plane_state.src_h >>> 16) * 2 = new_plane_state.crtc_h) ∧
    (new_plane_state.src_w >>> 16) = new_plane_state.crtc_w :=
  ⟨(plane_atomic_check_some has_osd helper_ok old_plane_state
      new_plane_state ps ps' mc mc' h).1,
   (plane_atomic_check_some has_osd helper_ok old_plane_state
      new_plane_state ps ps' mc mc' h).2.1⟩

/-- C4, witness: the doublescan geometry (320×240 source scanned out at
320×480) passes the plane check and satisfies the geometry condition. -/
theorem C4_plane_check_geometry_witness :
    (ingenic_drm_plane_atomic_check true true plane320x480 plane320x480
        priv0 false = some ({ priv0 with doublescan := true }, false)) ∧
    (((plane320x480.src_h >>> 16) = plane320x480.crtc_h ∨
      (plane320x480.src_h >>> 16) * 2 = plane320x480.crtc_h) ∧
     (plane320x480.src_w >>> 16) = plane320x480.crtc_w) :=
  ⟨by decide,
   C4_plane_check_geometry true true false false plane320x480 plane320x480
     priv0 { priv0 with doublescan := true } (by decide)⟩

/-- C7: on a commit requiring a modeset, on a controller with OSD and an
IPU plane, the CRTC atomic check returns the `-EINVAL` validation error
(before any hardware write — the check is a pure function) exactly when
both the F1 plane and the IPU plane have a framebuffer attached; when at
most one of them does, this check does not reject the commit. -/
theorem C7_f1_ipu_exclusion (gamma_lut_size : Option Nat)
    (f1_state f0_state ipu : drm_plane_state)
    (ps : ingenic_drm_private_state)
    (hlut : (match gamma_lut_size with
             | some n => n != palette_size
             | none => false) = false) :
    ((f1_state.fb.isSome && ipu.fb.isSome) = true →
      ingenic_drm_crtc_atomic_check gamma_lut_size true true f1_state
        f0_state (some ipu) ps = none) ∧
    ((f1_state.fb.isSome && ipu.fb.isSome) = false →
      (ingenic_drm_crtc_atomic_check gamma_lut_size true true f1_state
        f0_state (some ipu) ps).isSome = true) := by
  constructor
  · intro hboth
    unfold ingenic_drm_crtc_atomic_check
    simp [hlut, hboth]
  · intro hnot
    unfold ingenic_drm_crtc_atomic_check
    simp [hlut, hnot]

/-- C7, witness: with both the F1 plane and the IPU plane enabled the
CRTC atomic check rejects the modeset commit. -/
theorem C7_f1_ipu_exclusion_witness :
    ((plane320.fb.isSome && plane320.fb.isSome) = true) ∧
    ingenic_drm_crtc_atomic_check none true true plane320 plane_disabled
        (some plane320) priv0 = none :=
  ⟨by decide,
   (C7_f1_ipu_exclusion none plane320 plane_disabled plane320 priv0
       (by decide)).1 (by decide)⟩

/-- C8: a proposed gamma LUT whose entry count differs from the hardware
palette capacity — 256 entries, the size of the `palette` array of
`struct ingenic_dma_hwdescs` — makes the CRTC atomic check fail with a
validation error, whatever the rest of the commit; and a commit with no
LUT is handled by the check exactly as one whose LUT has the correct
size, so it cannot be rejected by the size test. -/
theorem C8_gamma_lut_size (needs_modeset has_osd : Bool)
    (f1_state f0_state : drm_plane_state)
    (ipu_state : Option drm_plane_state)
    (ps : ingenic_drm_private_state) :
    (∀ n, n ≠ palette_size →
      ingenic_drm_crtc_atomic_check (some n) needs_modeset has_osd
        f1_state f0_state ipu_state ps = none) ∧
    (ingenic_drm_crtc_atomic_check none needs_modeset has_osd
        f1_state f0_state ipu_state ps =
      ingenic_drm_crtc_atomic_check (some palette_size) needs_modeset
        has_osd f1_state f0_state ipu_state ps) ∧
    palette_size = 256 := by
  refine ⟨?_, ?_, rfl⟩
  · intro n hn
    unfold ingenic_drm_crtc_atomic_check
    simp [hn]
  · unfold ingenic_drm_crtc_atomic_check
    simp

/-- C8, witness: a 128-entry gamma LUT is rejected by the CRTC atomic
check. -/
theorem C8_gamma_lut_size_witness :
    (128 : Nat) ≠ palette_size ∧
    ingenic_drm_crtc_atomic_check (some 128) true true plane320
        plane_disabled none priv0 = none :=
  ⟨by decide,
   (C8_gamma_lut_size true true plane320 plane_disabled none priv0).1 128
     (by decide)⟩

/-- C6: the `no_vblank` flag is set exactly when every plane is disabled
in the commit, and a set flag makes the commit tail skip the hardware
vertical-blank wait.  Three parts: (i) a successful CRTC atomic check of
a modeset commit on OSD hardware leaves `no_vblank` equal to "F1 and F0
and — when an IPU plane exists — the IPU plane all have no framebuffer";
(ii) across a whole commit's validation on OSD hardware without an IPU
plane (`ingenic_full_atomic_check`), the invariant "`no_vblank` iff both
planes disabled" is preserved: since any change of a plane's
enabled/disabled status forces a modeset, a non-modeset commit keeps
both the flag and the planes' statuses, and a modeset commit recomputes
the flag; (iii) `ingenic_drm_atomic_helper_commit_tail` waits for the
hardware vertical-blank interrupt exactly when the flag is clear,
synthesizing completion otherwise. -/
theorem C6_no_vblank_iff_all_disabled :
    (∀ (gamma_lut_size : Option Nat) (f1_state f0_state : drm_plane_state)
      (ipu_state : Option drm_plane_state)
      (ps ps' : ingenic_drm_private_state),
      ingenic_drm_crtc_atomic_check gamma_lut_size true true f1_state
          f0_state ipu_state ps = some ps' →
      ps'.no_vblank = (f1_state.fb.isNone && f0_state.fb.isNone &&
        !(match ipu_state with
          | some ipu => ipu.fb.isSome
          | none => false))) ∧
    (∀ (gamma_lut_size : Option Nat) (base_mode_changed : Bool)
      (f1_in_commit f1_helper_ok : Bool) (old_f1 new_f1 : drm_plane_state)
      (f0_in_commit f0_helper_ok : Bool) (old_f0 new_f0 : drm_plane_state)
      (ps ps' : ingenic_drm_private_state),
      (f1_in_commit = false → old_f1.fb = none ∧ new_f1.fb = none) →
      (f0_in_commit = false → old_f0.fb = none ∧ new_f0.fb = none) →
      ps.no_vblank = (old_f1.fb.isNone && old_f0.fb.isNone) →
      ingenic_full_atomic_check true gamma_lut_size base_mode_changed
          f1_in_commit f1_helper_ok old_f1 new_f1
          f0_in_commit f0_helper_ok old_f0 new_f0 ps = some ps' →
      ps'.no_vblank = (new_f1.fb.isNone && new_f0.fb.isNone)) ∧
    (∀ ps' : ingenic_drm_private_state,
      commit_tail_waits_for_vblanks (some ps') = !ps'.no_vblank) := by
  refine ⟨?_, ?_, ?_⟩
  · intro gamma_lut_size f1_state f0_state ipu_state ps ps' h
    unfold ingenic_drm_crtc_atomic_check at h
    repeat' split at h
    all_goals first
      | (injection h with h; subst h; rfl)
      | simp_all
  · intro gamma_lut_size base_mode_changed f1c f1h old_f1 new_f1
      f0c f0h old_f0 new_f0 ps ps' hc1 hc2 hinv h
    unfold ingenic_full_atomic_check at h
    rcases hst1 : (if f1c = true
        then ingenic_drm_plane_atomic_check true f1h old_f1 new_f1 ps
          base_mode_changed
        else some (ps, base_mode_changed)) with _ | ⟨ps1, mc1⟩
    · rw [hst1] at h
      simp at h
    · rw [hst1] at h
      simp only [] at h
      rcases hst0 : (if f0c = true
          then ingenic_drm_plane_atomic_check true f0h old_f0 new_f0 ps1
            mc1
          else some (ps1, mc1)) with _ | ⟨ps2, mc2⟩
      · rw [hst0] at h
        simp at h
      · rw [hst0] at h
        simp only [] at h
        obtain ⟨hnv1, hpres1⟩ := plane_step_props f1c f1h old_f1 new_f1
          ps base_mode_changed ps1 mc1 hst1 hc1
        obtain ⟨hnv2, hpres2⟩ := plane_step_props f0c f0h old_f0 new_f0
          ps1 mc1 ps2 mc2 hst0 hc2
        have hps' := crtc_atomic_check_ipu_none gamma_lut_size mc2 new_f1
          new_f0 ps2 ps' h
        by_cases hm : mc2 = true
        · subst hm
          rw [hps']
          simp
        · rw [Bool.not_eq_true] at hm
          subst hm
          obtain ⟨hp0, hm1⟩ := hpres2 rfl
          obtain ⟨hp1, -⟩ := hpres1 hm1
          rw [hps']
          simp only [Bool.false_eq_true, if_false]
          rw [hnv2, hnv1, hinv, hp0, hp1]
  · intro ps'
    rfl

/-- C6, witness: a modeset commit disabling both planes on OSD hardware
without an IPU plane yields `no_vblank = true`, and the commit tail then
does not wait for a hardware vertical blank. -/
theorem C6_no_vblank_iff_all_disabled_witness :
    (ingenic_drm_crtc_atomic_check none true true plane_disabled
        plane_disabled none priv0 = some { priv0 with no_vblank := true }) ∧
    (({ priv0 with no_vblank := true } :
        ingenic_drm_private_state).no_vblank =
      (plane_disabled.fb.isNone && plane_disabled.fb.isNone &&
        !(match (none : Option drm_plane_state) with
          | some ipu => ipu.fb.isSome
          | none => false))) ∧
    (commit_tail_waits_for_vblanks
        (some { priv0 with no_vblank := true }) = false) :=
  ⟨by decide,
   C6_no_vblank_iff_all_disabled.1 none plane_disabled plane_disabled none
     priv0 { priv0 with no_vblank := true } (by decide),
   by decide⟩

/-- C5, counterexample: under the spec's stated mode invariant alone the
claimed bound `active_end ≤ total` fails.  The mode with horizontal
display 350, sync 340–360, total 400 (vertical timing conventional)
satisfies `sync_start < sync_end ≤ total` and `display ≤ total`, yet
`ingenic_drm_crtc_update_timings` computes a horizontal display end of
410, exceeding the programmed total line time of 400. -/
theorem C5_counterexample :
    mode_invariant ⟨350, 340, 360, 400, 240, 260, 280, 300⟩ ∧
    ¬((ingenic_drm_crtc_update_timings
        ⟨350, 340, 360, 400, 240, 260, 280, 300⟩).hde ≤
      (ingenic_drm_crtc_update_timings
        ⟨350, 340, 360, 400, 240, 260, 280, 300⟩).ht) := by
  constructor
  · decide
  · decide

/-- C5, amended: for every display mode satisfying the spec's invariant
strengthened with `display ≤ sync_start` (non-negative front porch), the
timings computed by `ingenic_drm_crtc_update_timings` satisfy, in both
dimensions: sync pulse width = sync_end − sync_start, display start
(back porch) = total − sync_start, display end = display start + active
size, the programmed total equals the mode's total, and the display end
does not exceed the programmed total. -/
theorem C5_timings (m : drm_display_mode) (h : mode_invariant_amended m) :
    (ingenic_drm_crtc_update_timings m).hpe =
      m.crtc_hsync_end - m.crtc_hsync_start ∧
    (ingenic_drm_crtc_update_timings m).hds =
      m.crtc_htotal - m.crtc_hsync_start ∧
    (ingenic_drm_crtc_update_timings m).hde =
      (ingenic_drm_crtc_update_timings m).hds + m.crtc_hdisplay ∧
    (ingenic_drm_crtc_update_timings m).ht = m.crtc_htotal ∧
    (ingenic_drm_crtc_update_timings m).hde ≤
      (ingenic_drm_crtc_update_timings m).ht ∧
    (ingenic_drm_crtc_update_timings m).vpe =
      m.crtc_vsync_end - m.crtc_vsync_start ∧
    (ingenic_drm_crtc_update_timings m).vds =
      m.crtc_vtotal - m.crtc_vsync_start ∧
    (ingenic_drm_crtc_update_timings m).vde =
      (ingenic_drm_crtc_update_timings m).vds + m.crtc_vdisplay ∧
    (ingenic_drm_crtc_update_timings m).vt = m.crtc_vtotal ∧
    (ingenic_drm_crtc_update_timings m).vde ≤
      (ingenic_drm_crtc_update_timings m).vt := by
  obtain ⟨⟨h1, h2, h3, h4, h5, h6⟩, h7, h8⟩ := h
  have e1 : (ingenic_drm_crtc_update_timings m).hpe =
      m.crtc_hsync_end - m.crtc_hsync_start := rfl
  have e2 : (ingenic_drm_crtc_update_timings m).hds =
      m.crtc_htotal - m.crtc_hsync_start := rfl
  have e3 : (ingenic_drm_crtc_update_timings m).hde =
      (m.crtc_htotal - m.crtc_hsync_start) + m.crtc_hdisplay := rfl
  have e4 : (ingenic_drm_crtc_update_timings m).ht =
      (m.crtc_htotal - m.crtc_hsync_start) + m.crtc_hdisplay +
        m.crtc_hsync_start - m.crtc_hdisplay := rfl
  have e5 : (ingenic_drm_crtc_update_timings m).vpe =
      m.crtc_vsync_end - m.crtc_vsync_start := rfl
  have e6 : (ingenic_drm_crtc_update_timings m).vds =
      m.crtc_vtotal - m.crtc_vsync_start := rfl
  have e7 : (ingenic_drm_crtc_update_timings m).vde =
      (m.crtc_vtotal - m.crtc_vsync_start) + m.crtc_vdisplay := rfl
  have e8 : (ingenic_drm_crtc_update_timings m).vt =
      (m.crtc_vtotal - m.crtc_vsync_start) + m.crtc_vdisplay +
        m.crtc_vsync_start - m.crtc_vdisplay := rfl
  omega

/-- C5, witness: the amended invariant and the timing relations hold at
the spec's 320×240 scenario mode (display 320/240, sync start 340/260,
sync end 360/280, total 400/300). -/
theorem C5_timings_witness :
    mode_invariant_amended ⟨320, 340, 360, 400, 240, 260, 280, 300⟩ ∧
    ((ingenic_drm_crtc_update_timings
        ⟨320, 340, 360, 400, 240, 260, 280, 300⟩).hpe = 360 - 340 ∧
     (ingenic_drm_crtc_update_timings
        ⟨320, 340, 360, 400, 240, 260, 280, 300⟩).hds = 400 - 340 ∧
     (ingenic_drm_crtc_update_timings
        ⟨320, 340, 360, 400, 240, 260, 280, 300⟩).hde =
       (ingenic_drm_crtc_update_timings
        ⟨320, 340, 360, 400, 240, 260, 280, 300⟩).hds + 320 ∧
     (ingenic_drm_crtc_update_timings
        ⟨320, 340, 360, 400, 240, 260, 280, 300⟩).ht = 400 ∧
     (ingenic_drm_crtc_update_timings
        ⟨320, 340, 360, 400, 240, 260, 280, 300⟩).hde ≤
       (ingenic_drm_crtc_update_timings
        ⟨320, 340, 360, 400, 240, 260, 280, 300⟩).ht ∧
     (ingenic_drm_crtc_update_timings
        ⟨320, 340, 360, 400, 240, 260, 280, 300⟩).vpe = 280 - 260 ∧
     (ingenic_drm_crtc_update_timings
        ⟨320, 340, 360, 400, 240, 260, 280, 300⟩).vds = 300 - 260 ∧
     (ingenic_drm_crtc_update_timings
        ⟨320, 340, 360, 400, 240, 260, 280, 300⟩).vde =
       (ingenic_drm_crtc_update_timings
        ⟨320, 340, 360, 400, 240, 260, 280, 300⟩).vds + 240 ∧
     (ingenic_drm_crtc_update_timings
        ⟨320, 340, 360, 400, 240, 260, 280, 300⟩).vt = 300 ∧
     (ingenic_drm_crtc_update_timings
        ⟨320, 340, 360, 400, 240, 260, 280, 300⟩).vde ≤
       (ingenic_drm_crtc_update_timings
        ⟨320, 340, 360, 400, 240, 260, 280, 300⟩).vt) :=
  ⟨by decide, C5_timings ⟨320, 340, 360, 400, 240, 260, 280, 300⟩ (by decide)⟩

/-- C2: a plane update in doublescan mode (output height `2 * H`, source
height `H`, `H > 0`) builds a descriptor chain of exactly `2 * H` nodes;
node `i` has source address `fb.addr + (i / 2) * pitch` (each input line
used twice) and transfer length one line's word count (`pitch / 4`);
every node's `next` points at the immediately following arena slot
except the last, which is the only node carrying the end-of-frame
interrupt flag and whose `next` points at the next chain head — the
palette descriptor when an indexed format is in use, otherwise the
plane's hardware descriptor slot. -/
theorem C2_doublescan_descriptors (ps : ingenic_drm_private_state)
    (newstate : drm_plane_state) (fb : drm_framebuffer)
    (hwdescs_phys dma_hwdescs_phys : Nat) (use_f1 : Bool) (H : Nat)
    (hds : ps.doublescan = true)
    (hsrc : newstate.src_h >>> 16 = H)
    (hout : newstate.crtc_h = 2 * H)
    (hpos : 0 < H)
    (hpitch : fb.pitch / 4 < 2 ^ 30) :
    (ingenic_drm_plane_atomic_update ps newstate fb hwdescs_phys
        dma_hwdescs_phys use_f1).length = 2 * H ∧
    (∀ i, i < 2 * H →
      (ingenic_drm_plane_atomic_update ps newstate fb hwdescs_phys
          dma_hwdescs_phys use_f1).get? i = some
        { next := if i = 2 * H - 1
                  then ingenic_next_addr ps dma_hwdescs_phys use_f1
                  else hwdescs_phys + (i + 1) * sizeof_hwdesc,
          addr := fb.addr + (i / 2) * fb.pitch,
          id := 0,
          cmd := if i = 2 * H - 1
                 then (fb.pitch / 4) ||| JZ_LCD_CMD_EOF_IRQ
                 else fb.pitch / 4 }) ∧
    (∀ i d, i < 2 * H →
      (ingenic_drm_plane_atomic_update ps newstate fb hwdescs_phys
          dma_hwdescs_phys use_f1).get? i = some d →
      d.cmd.testBit 30 = decide (i = 2 * H - 1) ∧
      ingenic_cmd_len d.cmd = fb.pitch / 4) ∧
    ingenic_next_addr ps dma_hwdescs_phys use_f1 =
      (if ps.use_palette then dma_hwdesc_pal_addr dma_hwdescs_phys
       else dma_hwdesc_addr dma_hwdescs_phys use_f1) := by
  have hupd : ingenic_drm_plane_atomic_update ps newstate fb hwdescs_phys
      dma_hwdescs_phys use_f1 =
      ingenic_doublescan_chain hwdescs_phys fb.addr fb.pitch
        newstate.crtc_h (ingenic_next_addr ps dma_hwdescs_phys use_f1) := by
    unfold ingenic_drm_plane_atomic_update
    rw [hds]
    simp
  rw [hupd, hout]
  have hpos2 : 0 < 2 * H := by omega
  refine ⟨ingenic_doublescan_chain_length _ _ _ _ _, ?_, ?_, rfl⟩
  · intro i hi
    exact ingenic_doublescan_chain_get _ _ _ _ _ hpos2 i hi
  · intro i d hi hod
    rw [ingenic_doublescan_chain_get _ _ _ _ _ hpos2 i hi] at hod
    injection hod with hod
    subst hod
    by_cases he : i = 2 * H - 1
    · constructor
      · simp [he, testBit_eof_self]
      · simp [he, ingenic_cmd_len_lor_eof _ hpitch]
    · constructor
      · simp [he, Nat.testBit_lt_two_pow hpitch]
      · simp [he, ingenic_cmd_len_of_lt _ hpitch]

/-- C2, witness: the spec scenario (320×240 source scanned out at
320×480, pitch 640) produces a 480-node chain. -/
theorem C2_doublescan_descriptors_witness :
    ({ priv0 with doublescan := true } :
        ingenic_drm_private_state).doublescan = true ∧
    plane320x480.src_h >>> 16 = 240 ∧
    plane320x480.crtc_h = 2 * 240 ∧
    fb565.pitch / 4 < 2 ^ 30 ∧
    (ingenic_drm_plane_atomic_update { priv0 with doublescan := true }
        plane320x480 fb565 4096 0 false).length = 480 :=
  ⟨rfl, by decide, by decide, by decide,
   (C2_doublescan_descriptors { priv0 with doublescan := true }
       plane320x480 fb565 4096 0 false 240 rfl (by decide) (by decide)
       (by decide) (by decide)).1⟩

/-- C3: a plane update not in doublescan mode writes exactly one
descriptor, whose transfer length is
`width * height * bytes_per_pixel / 4` words (width and height taken
from the source rectangle), with the end-of-frame flag set, the
framebuffer base as source address, and `next` at the next chain head.
In particular, a 320×240 RGB565 source yields 38400 words (see the
witness). -/
theorem C3_single_descriptor (ps : ingenic_drm_private_state)
    (newstate : drm_plane_state) (fb : drm_framebuffer)
    (hwdescs_phys dma_hwdescs_phys : Nat) (use_f1 : Bool)
    (hds : ps.doublescan = false)
    (hlen : (newstate.src_w >>> 16) * (newstate.src_h >>> 16) * fb.cpp / 4
      < 2 ^ 30) :
    (ingenic_drm_plane_atomic_update ps newstate fb hwdescs_phys
        dma_hwdescs_phys use_f1).length = 1 ∧
    (∀ d ∈ ingenic_drm_plane_atomic_update ps newstate fb hwdescs_phys
        dma_hwdescs_phys use_f1,
      ingenic_cmd_len d.cmd =
        (newstate.src_w >>> 16) * (newstate.src_h >>> 16) * fb.cpp / 4 ∧
      d.cmd.testBit 30 = true ∧
      d.addr = fb.addr ∧
      d.next = ingenic_next_addr ps dma_hwdescs_phys use_f1) := by
  have hupd : ingenic_drm_plane_atomic_update ps newstate fb hwdescs_phys
      dma_hwdescs_phys use_f1 =
      [ingenic_single_hwdesc fb.addr (newstate.src_w >>> 16)
        (newstate.src_h >>> 16) fb.cpp
        (ingenic_next_addr ps dma_hwdescs_phys use_f1)] := by
    unfold ingenic_drm_plane_atomic_update
    rw [hds]
    simp
  rw [hupd]
  refine ⟨rfl, ?_⟩
  intro d hd
  rw [List.mem_singleton] at hd
  subst hd
  refine ⟨?_, ?_, rfl, rfl⟩
  · exact ingenic_cmd_len_eof_lor _ hlen
  · exact testBit_eof_lor_left _

/-- C3, witness: the spec scenario — 320×240 source in RGB565
(2 bytes per pixel), output height equal to source height — yields a
single descriptor of 38400 words with the end-of-frame flag set. -/
theorem C3_single_descriptor_witness :
    priv0.doublescan = false ∧
    320 * 240 * 2 / 4 = 38400 ∧
    (ingenic_drm_plane_atomic_update priv0 plane320 fb565 4096 0
        false).length = 1 ∧
    (∀ d ∈ ingenic_drm_plane_atomic_update priv0 plane320 fb565 4096 0
        false,
      ingenic_cmd_len d.cmd = 38400 ∧
      d.cmd.testBit 30 = true ∧
      d.addr = fb565.addr ∧
      d.next = ingenic_next_addr priv0 0 false) :=
  ⟨rfl, by decide,
   (C3_single_descriptor priv0 plane320 fb565 4096 0 false rfl
       (by decide)).1,
   (C3_single_descriptor priv0 plane320 fb565 4096 0 false rfl
       (by decide)).2⟩

/-- C10: the per-framebuffer descriptor arena created by
`ingenic_drm_gem_fb_create` holds `2 * fb.height` slots; a doublescan
chain build for a validated plane backed by that framebuffer (output
height `2 * H` with source height `H ≤ fb.height`) produces
`crtc_h` nodes and only touches arena slots `0 … crtc_h − 1` — the loop
indices together with the re-written last index — all of which lie
inside the allocated arena. -/
theorem C10_doublescan_arena_bounds (newstate : drm_plane_state)
    (fb : drm_framebuffer) (H : Nat)
    (hsrc : newstate.src_h >>> 16 = H)
    (hout : newstate.crtc_h = 2 * H)
    (hfit : H ≤ fb.height)
    (hpos : 0 < H) :
    ingenic_fb_hwdescs_slots fb = 2 * fb.height ∧
    (∀ hwdescs_phys addr pitch next_addr : Nat,
      (ingenic_doublescan_chain hwdescs_phys addr pitch newstate.crtc_h
        next_addr).length = newstate.crtc_h) ∧
    (∀ i ∈ doublescan_written_slots newstate.crtc_h,
      i < ingenic_fb_hwdescs_slots fb) := by
  refine ⟨by unfold ingenic_fb_hwdescs_slots; omega, ?_, ?_⟩
  · intro a b c d
    exact ingenic_doublescan_chain_length a b c newstate.crtc_h d
  · intro i hi
    unfold doublescan_written_slots at hi
    rw [List.mem_append] at hi
    unfold ingenic_fb_hwdescs_slots
    rcases hi with hi | hi
    · rw [List.mem_range] at hi
      omega
    · rw [List.mem_singleton] at hi
      omega

/-- C10, witness: the doublescan scenario (480 output lines on a
240-line framebuffer) only writes slots below the 480-slot arena. -/
theorem C10_doublescan_arena_bounds_witness :
    plane320x480.crtc_h = 2 * 240 ∧
    (240 : Nat) ≤ fb565.height ∧
    (∀ i ∈ doublescan_written_slots plane320x480.crtc_h,
      i < ingenic_fb_hwdescs_slots fb565) :=
  ⟨by decide, by decide,
   (C10_doublescan_arena_bounds plane320x480 fb565 240 (by decide)
       (by decide) (by decide) (by decide)).2.2⟩

end IngenicDrm
